import Mathlib

/-!
Shallow embedding of the movies-db browser client (src/movies-db-ui) and, where
the claims reach into the backend contract, of the spec's Record Store.

The embedding follows `src/movies-db-ui/src/service/service.ts`,
`src/movies-db-ui/src/service/types.ts`, and the components
`AddVideoDialog.tsx`, `VideoCard.tsx`, `VideoListFilters.tsx`, `VideosList.tsx`.
-/

namespace MoviesDb

/-- MovieId from types.ts: `export type MovieId = string`. -/
abbrev MovieId := String

/-- MovieSubmit from types.ts: title plus optional description and tags. -/
structure MovieSubmit where
  title : String
  description : Option String
  tags : Option (List String)
deriving DecidableEq

/-- MovieFileInfo / ScreenshotInfo from types.ts: extension and mime type. -/
structure FileInfo where
  extension : String
  mime_type : String
deriving DecidableEq

/-- MovieDetailed from types.ts. -/
structure MovieDetailed where
  movie : MovieSubmit
  movie_file_info : Option FileInfo
  screenshot_file_info : Option FileInfo
  date : String
deriving DecidableEq

/-- SortingField from types.ts (string-valued enum). -/
inductive SortingField where
  | title
  | date
deriving DecidableEq, Fintype

/-- The string value of the SortingField enum member. -/
def SortingField.param : SortingField → String
  | SortingField.title => "title"
  | SortingField.date => "date"

/-- SortingOrder from types.ts (string-valued enum). -/
inductive SortingOrder where
  | ascending
  | descending
deriving DecidableEq, Fintype

/-- The string value of the SortingOrder enum member. -/
def SortingOrder.param : SortingOrder → String
  | SortingOrder.ascending => "ascending"
  | SortingOrder.descending => "descending"

/-- MovieSearchQuery from types.ts. -/
structure MovieSearchQuery where
  sorting_field : SortingField
  sorting_order : SortingOrder
  title : Option String
  tags : Option (List String)
  start_index : Option Nat
  num_results : Option Nat
deriving DecidableEq

/-- MovieSearchResultEntry from types.ts: just an id and a title. -/
structure MovieSearchResultEntry where
  id : MovieId
  title : String
deriving DecidableEq

/-- JavaScript truthiness of an optional string (`undefined` and `""` are falsy). -/
def jsTruthyStr : Option String → Bool
  | none => false
  | some s => !s.isEmpty

/-- JavaScript truthiness of an optional number (`undefined` and `0` are falsy). -/
def jsTruthyNum : Option Nat → Bool
  | none => false
  | some n => n != 0

/-- The query string built by `Service.searchMovies` (service.ts lines 120-143).
The source declares `const queryString` with the two sorting parameters and then,
in each `if` block, calls `queryString.concat(...)`: in JavaScript `concat`
returns a fresh string and leaves `queryString` unchanged, and that returned
string is discarded, so the final URL carries only the sorting parameters.
The discarded concatenations appear here as unused `let` bindings. -/
def searchMoviesQueryString (query : MovieSearchQuery) : String :=
  let queryString :=
    "sorting_order=" ++ query.sorting_order.param ++
      "&sorting_field=" ++ query.sorting_field.param
  let _ := if jsTruthyStr query.title then
      queryString ++ "&title=" ++ query.title.getD "" else queryString
  let _ := if jsTruthyNum query.start_index then
      queryString ++ "&start_index=" ++ toString (query.start_index.getD 0) else queryString
  let _ := if jsTruthyNum query.num_results then
      queryString ++ "&num_results=" ++ toString (query.num_results.getD 0) else queryString
  queryString

/-- The sorting menu options of VideoListFilters.tsx. -/
inductive SortingOption where
  | titleAscending
  | titleDescending
  | dateAscending
  | dateDescending
deriving DecidableEq, Fintype

/-- The `handleSorting` switch of VideoListFilters.tsx (lines 65-88): the pair of
arguments passed to `props.onChangeSorting` for each menu option. -/
def handleSorting : SortingOption → SortingField × SortingOrder
  | SortingOption.dateAscending => (SortingField.date, SortingOrder.ascending)
  | SortingOption.dateDescending => (SortingField.date, SortingOrder.descending)
  | SortingOption.titleAscending => (SortingField.title, SortingOrder.ascending)
  | SortingOption.titleDescending => (SortingField.title, SortingOrder.descending)

/-- A browser `File` object; only its name matters to the embedded client code. -/
structure File where
  name : String
deriving DecidableEq

/-- An upload progress event of the XMLHttpRequest: bytes uploaded and total bytes.
Rationals stand in for JavaScript numbers so that the percentage division is exact. -/
structure UploadProgressEvent where
  loaded : ℚ
  total : ℚ
deriving DecidableEq

/-- One run of the file-upload XMLHttpRequest: the upload progress events observed
before the `load` event, then the final HTTP status and response body. -/
structure UploadRun where
  progressEvents : List UploadProgressEvent
  status : Nat
  response : String

/-- The status test of the `load` handler in `Service.submitMovieFile`
(service.ts line 184): `request.status === 200 || request.status === 201 ||
request.status === 202`. -/
def isOkStatus (status : Nat) : Bool :=
  status == 200 || status == 201 || status == 202

/-- The `load` event handler of `Service.submitMovieFile` (service.ts lines 182-190):
it first calls `handleProgressUpdate(100, true)` and only then inspects
`request.status`, resolving on 200/201/202 and rejecting with `request.response`
otherwise. Returned as (callback invocations, promise outcome). -/
def loadEventCalls (status : Nat) (response : String) : List (ℚ × Bool) × Except String Unit :=
  ([((100 : ℚ), true)],
    if isOkStatus status then Except.ok () else Except.error response)

/-- The observable behaviour of `Service.submitMovieFile` (service.ts lines 159-197)
on a given upload run, for a caller with a progress callback attached: the sequence
of `(progress, done)` invocations of the callback and the promise outcome.
The source calls `handleProgressUpdate(0, false)` before sending, reports
`(e.loaded / e.total) * 100` with `done = false` on each upload progress event,
and runs the `load` handler at the end. -/
def submitMovieFileTrace (run : UploadRun) : List (ℚ × Bool) × Except String Unit :=
  let initCall : ℚ × Bool := ((0 : ℚ), false)
  let progressCalls := run.progressEvents.map fun e => (e.loaded / e.total * 100, false)
  let load := loadEventCalls run.status run.response
  ((initCall :: progressCalls) ++ load.1, load.2)

/-- An HTTP request issued by `Service.submitMovie` and its helpers. -/
inductive Request where
  | postMovieInfo (movie : MovieSubmit)
  | postMovieFile (id : MovieId)
deriving DecidableEq

/-- The server's behaviour as seen by `Service.submitMovie`: the response to
`POST /movie` (the movie id body when the response is ok, `none` otherwise)
and whether `POST /movie/file` succeeds for a given id. -/
structure HttpEnv where
  postMovieResponse : MovieSubmit → Option MovieId
  postFileOk : MovieId → Bool

/-- Embedding of `Service.submitMovieInfo` (service.ts lines 206-222): POSTs the
metadata, throws `"Failed to submit movie"` when the response is not ok, and
otherwise returns the response body as the movie id. The first component is the
list of requests issued. -/
def submitMovieInfo (env : HttpEnv) (movie : MovieSubmit) :
    List Request × Except String MovieId :=
  ([Request.postMovieInfo movie],
    match env.postMovieResponse movie with
    | some id => Except.ok id
    | none => Except.error "Failed to submit movie")

/-- The request-level view of `Service.submitMovieFile` for a given movie id:
one `POST /movie/file?id=...` request, resolving or rejecting as the server decides. -/
def submitMovieFileCall (env : HttpEnv) (id : MovieId) :
    List Request × Except String Unit :=
  ([Request.postMovieFile id],
    if env.postFileOk id then Except.ok () else Except.error "upload failed")

/-- Embedding of `Service.submitMovie` (service.ts lines 87-92): awaits
`submitMovieInfo`, then awaits `submitMovieFile` for the returned id, then
returns that id. An exception in either step propagates. -/
def submitMovie (env : HttpEnv) (movie : MovieSubmit) :
    List Request × Except String MovieId :=
  match submitMovieInfo env movie with
  | (t₁, Except.error e) => (t₁, Except.error e)
  | (t₁, Except.ok id) =>
    match submitMovieFileCall env id with
    | (t₂, Except.error e) => (t₁ ++ t₂, Except.error e)
    | (t₂, Except.ok _) => (t₁ ++ t₂, Except.ok id)

/-- The form state of AddVideoDialog.tsx. -/
structure AddVideoDialogState where
  title : String
  description : String
  tags : List String
  file : Option File

/-- Embedding of `createMovieSubmitInfo` (AddVideoDialog.tsx lines 49-59):
returns `null` when the title has length 0, otherwise the `MovieSubmit` payload. -/
def createMovieSubmitInfo (s : AddVideoDialogState) : Option MovieSubmit :=
  if s.title.length = 0 then none
  else some { title := s.title, description := some s.description, tags := some s.tags }

/-- The disabled condition of the Add button (AddVideoDialog.tsx line 162):
`title.length === 0 || !file`. -/
def addButtonDisabled (s : AddVideoDialogState) : Bool :=
  s.title.length == 0 || s.file.isNone

/-- Embedding of `handleSubmit` (AddVideoDialog.tsx lines 61-72): calls
`props.onSubmit(info, file)` only when `createMovieSubmitInfo` returned a value
and a file is selected; the result is the argument pair passed to `onSubmit`,
or `none` when `onSubmit` is not called. -/
def handleSubmit (s : AddVideoDialogState) : Option (MovieSubmit × File) :=
  match createMovieSubmitInfo s, s.file with
  | some info, some f => some (info, f)
  | _, _ => none

/-- A movie record of the backend Record Store, per spec section 3. -/
structure MovieRecord where
  id : MovieId
  title : String
  description : Option String
  tags : List String

/-- The backend Record Store state: the persisted records and a fresh-id counter. -/
structure RecordStore where
  records : List MovieRecord
  nextId : Nat

/-- The error of a rejected `create`, per spec section 4.1. -/
inductive CreateError where
  | invalidInput
deriving DecidableEq

/-- Modelled from the spec: the Record Store `create` operation of the backend
(the Rust `movies-db-service` crate is not under `src/`; spec section 4.1:
"fails `InvalidInput` if title empty; allocates fresh id, persists record").
The resulting store is returned unchanged on failure, so a failed `create`
creates no record. -/
def create (st : RecordStore) (title : String) (description : Option String)
    (tags : List String) : RecordStore × Except CreateError MovieId :=
  if title.length = 0 then (st, Except.error CreateError.invalidInput)
  else
    (⟨⟨toString st.nextId, title, description, tags⟩ :: st.records, st.nextId + 1⟩,
      Except.ok (toString st.nextId))

/-- Embedding of `Service.getMovieUrl` (service.ts lines 148-150). -/
def getMovieUrl (endpoint : String) (id : MovieId) : String :=
  endpoint ++ "/movie/file?id=" ++ id

/-- Modelled from the spec: `Service.getPreviewUrl`, the screenshot resource URL
for a movie id, whose body is in a revision of service.ts not under `src/`
(only its caller in VideoCard.tsx is). Spec section 6:
`get_screenshot_bytes(MovieId)` addresses the screenshot blob by the movie id. -/
def getPreviewUrl (endpoint : String) (id : MovieId) : String :=
  endpoint ++ "/movie/preview?id=" ++ id

/-- A resource request issued by the card and player components. -/
inductive ResourceReq where
  | getMovie (id : MovieId)
  | getPreview (id : MovieId)
deriving DecidableEq

/-- The preview URL state set by VideoCard.tsx (lines 27-35): after `getMovie`
resolves, `setPreviewURL(service.getPreviewUrl(id))` runs only when
`movie.screenshot_file_info` is present; otherwise the state stays `null`. -/
def videoCardPreviewURL (endpoint : String) (id : MovieId) (movie : MovieDetailed) :
    Option String :=
  match movie.screenshot_file_info with
  | some _ => some (getPreviewUrl endpoint id)
  | none => none

/-- The media element rendered by VideoCard.tsx (lines 71-80): the preview image
when `previewURL` is set, the `NoVideo` placeholder image otherwise. -/
inductive CardMedia where
  | preview (url : String)
  | placeholder
deriving DecidableEq

/-- Which media VideoCard renders for a given movie. -/
def videoCardMedia (endpoint : String) (id : MovieId) (movie : MovieDetailed) :
    CardMedia :=
  match videoCardPreviewURL endpoint id movie with
  | some url => CardMedia.preview url
  | none => CardMedia.placeholder

/-- The resource requests a VideoCard causes for a movie: the `getMovie` detail
fetch, plus a screenshot fetch exactly when a preview URL was set. -/
def videoCardRequests (endpoint : String) (id : MovieId) (movie : MovieDetailed) :
    List ResourceReq :=
  ResourceReq.getMovie id ::
    (match videoCardPreviewURL endpoint id movie with
     | some _ => [ResourceReq.getPreview id]
     | none => [])

/-- Embedding of `handleAddTag` (AddVideoDialog.tsx lines 33-41): a tag already
in the list is refused (`tags.find(t => t === tag)`), a tag of length 0 is
refused, and otherwise the tag is appended. -/
def handleAddTag (tags : List String) (tag : String) : List String :=
  if tags.contains tag then tags
  else if tag.length > 0 then tags ++ [tag]
  else tags

/-- Embedding of `handleDeleteTag` (AddVideoDialog.tsx lines 29-31):
`tags.filter(t => t !== tag)`. -/
def handleDeleteTag (tags : List String) (tag : String) : List String :=
  tags.filter fun t => t != tag

/-- One user interaction with the tag editor of AddVideoDialog. -/
inductive TagOp where
  | add (tag : String)
  | del (tag : String)

/-- The tag list reached from the initial empty list by a sequence of add/delete
interactions. -/
def applyTagOps (ops : List TagOp) : List String :=
  ops.foldl
    (fun tags op =>
      match op with
      | TagOp.add t => handleAddTag tags t
      | TagOp.del t => handleDeleteTag tags t)
    []

/-- A list of tags is case-normalized when every character of every tag is
already in lower case (types.ts describes tag lists as lower-case tags). -/
def caseNormalized (l : List String) : Prop :=
  ∀ t ∈ l, ∀ c ∈ t.data, c.toLower = c

instance (l : List String) : Decidable (caseNormalized l) := by
  unfold caseNormalized; infer_instance

/-- Embedding of `updateList` of VideosList.tsx (src/unnamed/part_002 lines 16-28):
maps the search result entries to their ids. -/
def updateList (movies : List MovieSearchResultEntry) : List MovieId :=
  movies.map fun movie => movie.id

/-- The detail fetches the rendered list causes: one `getMovie` per id from
`updateList`, issued by each VideoCard's effect. -/
def videosListDetailRequests (movies : List MovieSearchResultEntry) : List ResourceReq :=
  (updateList movies).map fun id => ResourceReq.getMovie id

/-- Embedding of `handleToggleTag` (VideoListFilters.tsx lines 45-57): the empty
string (the All chip) clears the selection; otherwise `tags.indexOf(tagName)` is
taken and the tag is appended when absent (`index === -1`) or the element at
that index is removed (`tags.filter((_, i) => i !== index)`). -/
def handleToggleTag (tags : List String) (tagName : String) : List String :=
  if tagName = "" then []
  else if tags.contains tagName then tags.eraseIdx (tags.indexOf tagName)
  else tags ++ [tagName]

/-! Helper lemmas -/

/-- For a non-empty tag name, toggling rewrites to erase-or-append: the element
removed by `tags.filter((_, i) => i !== index)` at the first index of the tag is
the first occurrence, i.e. `List.erase`. -/
theorem handleToggleTag_eq (l : List String) (t : String) (ht : t ≠ "") :
    handleToggleTag l t = if t ∈ l then l.erase t else l ++ [t] := by
  simp only [handleToggleTag, if_neg ht]
  by_cases h : t ∈ l
  · simp [h, List.eraseIdx_indexOf_eq_erase]
  · simp [h]

/-! Claim theorems -/

/-- C1: claimed, the HTTP request issued by `Service.searchMovies` carries every
field of the query. Refuted by the code: `queryString.concat(...)` discards its
result in JavaScript, so the query string is always exactly the two sorting
parameters; the title, start_index and num_results are dropped and tags are
never serialized at all. At the failing input (Date/Descending, title "Matrix",
tags ["action"], start_index 5, num_results 3) the query string carries no
`&title=` parameter, and in general it is independent of all optional fields. -/
theorem searchMovies_drops_optional_query_fields :
    searchMoviesQueryString
        ⟨SortingField.date, SortingOrder.descending, some "Matrix", some ["action"],
          some 5, some 3⟩ =
      "sorting_order=descending&sorting_field=date" ∧
    ¬ List.IsInfix "&title=".toList
        (searchMoviesQueryString
          ⟨SortingField.date, SortingOrder.descending, some "Matrix", some ["action"],
            some 5, some 3⟩).toList ∧
    ∀ q : MovieSearchQuery,
      searchMoviesQueryString q =
        searchMoviesQueryString
          ⟨q.sorting_field, q.sorting_order, none, none, none, none⟩ :=
  ⟨by decide, by decide, fun q => rfl⟩

/-- C7: every search result entry is exactly an id and a title, and the rendered
list performs one separate `getMovie` detail fetch per returned id. -/
theorem searchResult_entries_only_id_title :
    (∀ e : MovieSearchResultEntry, e = ⟨e.id, e.title⟩) ∧
    (∀ movies : List MovieSearchResultEntry,
      updateList movies = movies.map (fun e => e.id) ∧
      videosListDetailRequests movies = movies.map (fun e => ResourceReq.getMovie e.id) ∧
      (videosListDetailRequests movies).length = movies.length) := by
  constructor
  · intro e; cases e; rfl
  · intro movies
    refine ⟨rfl, ?_, by simp [videosListDetailRequests, updateList]⟩
    simp [videosListDetailRequests, updateList, List.map_map]

/-- C8: the four sorting options of VideoListFilter map bijectively onto the
four (sorting_field, sorting_order) combinations, with the stated assignment. -/
theorem handleSorting_bijective :
    handleSorting SortingOption.dateAscending = (SortingField.date, SortingOrder.ascending) ∧
    handleSorting SortingOption.dateDescending = (SortingField.date, SortingOrder.descending) ∧
    handleSorting SortingOption.titleAscending = (SortingField.title, SortingOrder.ascending) ∧
    handleSorting SortingOption.titleDescending = (SortingField.title, SortingOrder.descending) ∧
    Function.Bijective handleSorting := by
  refine ⟨rfl, rfl, rfl, rfl, ?_, ?_⟩
  · intro a b h
    cases a <;> cases b <;> simp_all [handleSorting]
  · rintro ⟨f, o⟩
    cases f <;> cases o <;>
      first
        | exact ⟨SortingOption.titleAscending, rfl⟩
        | exact ⟨SortingOption.titleDescending, rfl⟩
        | exact ⟨SortingOption.dateAscending, rfl⟩
        | exact ⟨SortingOption.dateDescending, rfl⟩

/-- C10 counterexample: on the selected-tag list ["a", "a"] (which contains a
duplicate), toggling the non-empty tag "a" twice yields the empty selection,
not a selection containing the same tags as the original list. -/
theorem handleToggleTag_twice_counterexample :
    handleToggleTag (handleToggleTag ["a", "a"] "a") "a" = [] ∧
    ¬ (∀ x, x ∈ handleToggleTag (handleToggleTag ["a", "a"] "a") "a" ↔
        x ∈ (["a", "a"] : List String)) := by
  refine ⟨by decide, fun h => ?_⟩
  exact absurd ((h "a").mpr (by decide)) (by decide)

/-- C10 amended: for every duplicate-free selected-tag list (the only lists
reachable by the component, which starts empty) and every non-empty tag name,
applying `handleToggleTag` twice yields a selection containing exactly the same
tags as the original list; applying it to the empty-string tag (the All chip)
always yields the empty selection. -/
theorem handleToggleTag_twice_amended (l : List String) (t : String)
    (hnd : l.Nodup) (ht : t ≠ "") :
    (∀ x, x ∈ handleToggleTag (handleToggleTag l t) t ↔ x ∈ l) ∧
    ∀ l' : List String, handleToggleTag l' "" = [] := by
  refine ⟨?_, fun l' => by simp [handleToggleTag]⟩
  intro x
  by_cases h : t ∈ l
  · have h1 : handleToggleTag l t = l.erase t := by
      rw [handleToggleTag_eq l t ht, if_pos h]
    have h2 : t ∉ l.erase t := hnd.not_mem_erase
    rw [h1, handleToggleTag_eq _ t ht, if_neg h2]
    simp only [List.mem_append, List.mem_singleton, hnd.mem_erase_iff]
    constructor
    · rintro (⟨_, hx⟩ | rfl)
      · exact hx
      · exact h
    · intro hx
      by_cases hxt : x = t
      · exact Or.inr hxt
      · exact Or.inl ⟨hxt, hx⟩
  · have h1 : handleToggleTag l t = l ++ [t] := by
      rw [handleToggleTag_eq l t ht, if_neg h]
    have h2 : t ∈ l ++ [t] := by simp
    rw [h1, handleToggleTag_eq _ t ht, if_pos h2,
      List.erase_append_right _ h]
    simp

/-- C10 witness: the amended statement evaluated on the duplicate-free list
["b"] and the tag "a". -/
theorem handleToggleTag_twice_amended_witness :
    (∀ x, x ∈ handleToggleTag (handleToggleTag ["b"] "a") "a" ↔
      x ∈ (["b"] : List String)) ∧
    ∀ l' : List String, handleToggleTag l' "" = [] :=
  handleToggleTag_twice_amended ["b"] "a" (by decide) (by decide)

/-- Adding a tag preserves duplicate-freeness and non-emptiness of the list. -/
theorem handleAddTag_inv (l : List String) (t : String)
    (h : l.Nodup ∧ ∀ x ∈ l, x ≠ "") :
    (handleAddTag l t).Nodup ∧ ∀ x ∈ handleAddTag l t, x ≠ "" := by
  by_cases hc : t ∈ l
  · simpa [handleAddTag, hc] using h
  · by_cases hlen : t.length > 0
    · have hne : t ≠ "" := by
        intro he
        rw [he] at hlen
        exact absurd hlen (by decide)
      have hform : handleAddTag l t = l ++ [t] := by
        simp [handleAddTag, hc, hlen]
      refine ⟨?_, ?_⟩
      · rw [hform]
        simp [List.nodup_append, h.1, hc]
      · intro x hx
        rw [hform] at hx
        rcases List.mem_append.mp hx with hxl | hxt
        · exact h.2 x hxl
        · rw [List.mem_singleton.mp hxt]; exact hne
    · simpa [handleAddTag, hc, hlen] using h

/-- Deleting a tag preserves duplicate-freeness and non-emptiness of the list. -/
theorem handleDeleteTag_inv (l : List String) (t : String)
    (h : l.Nodup ∧ ∀ x ∈ l, x ≠ "") :
    (handleDeleteTag l t).Nodup ∧ ∀ x ∈ handleDeleteTag l t, x ≠ "" := by
  refine ⟨h.1.filter _, ?_⟩
  intro x hx
  exact h.2 x (List.mem_of_mem_filter hx)

/-- The fold underlying `applyTagOps` preserves the invariant from any start state. -/
theorem applyTagOps_loop_inv (ops : List TagOp) (l : List String)
    (h : l.Nodup ∧ ∀ x ∈ l, x ≠ "") :
    (ops.foldl
      (fun tags op =>
        match op with
        | TagOp.add t => handleAddTag tags t
        | TagOp.del t => handleDeleteTag tags t)
      l).Nodup ∧
    ∀ x ∈ ops.foldl
      (fun tags op =>
        match op with
        | TagOp.add t => handleAddTag tags t
        | TagOp.del t => handleDeleteTag tags t)
      l, x ≠ "" := by
  induction ops generalizing l with
  | nil => exact h
  | cons op rest ih =>
    cases op with
    | add t => exact ih (handleAddTag l t) (handleAddTag_inv l t h)
    | del t => exact ih (handleDeleteTag l t) (handleDeleteTag_inv l t h)

/-- C6 counterexample: the tag editor performs no case normalization. Adding
"Tag" and then "tag" succeeds for both (comparison is exact string equality),
leaving a list with an upper-case character and two tags equal up to case,
so the submitted tag list is not case-normalized. -/
theorem handleAddTag_not_case_normalized :
    applyTagOps [TagOp.add "Tag", TagOp.add "tag"] = ["Tag", "tag"] ∧
    ¬ caseNormalized (applyTagOps [TagOp.add "Tag", TagOp.add "tag"]) :=
  ⟨by decide, by decide⟩

/-- C6 amended: for every sequence of add-tag and delete-tag interactions in
AddVideoDialog, the tag list attached to a submitted movie is a duplicate-free
(under exact string comparison, with no case normalization) list of non-empty
tags: `handleAddTag` refuses a tag that is already in the list and refuses a
tag of length 0. -/
theorem applyTagOps_nodup_nonempty (ops : List TagOp) :
    (applyTagOps ops).Nodup ∧
    (∀ t ∈ applyTagOps ops, t ≠ "") ∧
    (∀ (tags : List String) (tag : String), tag ∈ tags → handleAddTag tags tag = tags) ∧
    (∀ (tags : List String) (tag : String), tag.length = 0 → handleAddTag tags tag = tags) := by
  have h := applyTagOps_loop_inv ops [] ⟨List.nodup_nil, by simp⟩
  refine ⟨h.1, h.2, ?_, ?_⟩
  · intro tags tag hmem
    simp [handleAddTag, hmem]
  · intro tags tag hlen
    by_cases hc : tag ∈ tags
    · simp [handleAddTag, hc]
    · simp [handleAddTag, hc, hlen]

/-- C6 witness: the amended statement evaluated on a concrete interaction
sequence, with concrete refused additions. -/
theorem applyTagOps_nodup_nonempty_witness :
    (applyTagOps [TagOp.add "a", TagOp.add "b", TagOp.del "a"]).Nodup ∧
    handleAddTag ["a"] "a" = ["a"] ∧
    handleAddTag ["a"] "" = ["a"] := by
  have h := applyTagOps_nodup_nonempty [TagOp.add "a", TagOp.add "b", TagOp.del "a"]
  exact ⟨h.1, h.2.2.1 ["a"] "a" (by decide), h.2.2.2 ["a"] "" (by decide)⟩

/-- C2: for every upload with a progress callback attached, the callback is
invoked with progress values between 0 and 100: first 0 with done = false
before transmission starts, then (loaded / total) * 100 with done = false for
each upload progress event, and a terminal invocation (100, done = true) when
the request completes. -/
theorem submitMovieFile_progress (run : UploadRun)
    (h : ∀ e ∈ run.progressEvents, 0 ≤ e.loaded ∧ e.loaded ≤ e.total ∧ 0 < e.total) :
    (submitMovieFileTrace run).1.head? = some ((0 : ℚ), false) ∧
    (submitMovieFileTrace run).1.getLast? = some ((100 : ℚ), true) ∧
    (∀ e ∈ run.progressEvents,
      (e.loaded / e.total * 100, false) ∈ (submitMovieFileTrace run).1) ∧
    (∀ c ∈ (submitMovieFileTrace run).1, 0 ≤ c.1 ∧ c.1 ≤ 100) := by
  refine ⟨rfl, List.getLast?_concat _, ?_, ?_⟩
  · intro e he
    simp only [submitMovieFileTrace, loadEventCalls, List.mem_append, List.mem_cons,
      List.mem_map, List.mem_singleton]
    exact Or.inl (Or.inr ⟨e, he, rfl⟩)
  · intro c hc
    simp only [submitMovieFileTrace, loadEventCalls, List.mem_append, List.mem_cons,
      List.mem_map, List.mem_singleton] at hc
    rcases hc with (rfl | ⟨e, he, rfl⟩) | rfl | h'
    · norm_num
    · obtain ⟨h0, hle, hpos⟩ := h e he
      constructor
      · positivity
      · have hdiv : e.loaded / e.total ≤ 1 := (div_le_one hpos).mpr hle
        nlinarith
    · norm_num
    · simp at h'

/-- C2 witness: the progress contract evaluated on a run with one progress
event of 50 of 100 bytes and a 200 response. -/
theorem submitMovieFile_progress_witness :
    (submitMovieFileTrace ⟨[⟨50, 100⟩], 200, "r"⟩).1.head? = some ((0 : ℚ), false) ∧
    (submitMovieFileTrace ⟨[⟨50, 100⟩], 200, "r"⟩).1.getLast? = some ((100 : ℚ), true) ∧
    (∀ e ∈ (⟨[⟨50, 100⟩], 200, "r"⟩ : UploadRun).progressEvents,
      (e.loaded / e.total * 100, false) ∈ (submitMovieFileTrace ⟨[⟨50, 100⟩], 200, "r"⟩).1) ∧
    (∀ c ∈ (submitMovieFileTrace ⟨[⟨50, 100⟩], 200, "r"⟩).1, 0 ≤ c.1 ∧ c.1 ≤ 100) :=
  submitMovieFile_progress ⟨[⟨50, 100⟩], 200, "r"⟩ (by decide)

/-- C9: when the load event fires, the handler reports (100, done = true) to the
progress callback before inspecting the HTTP status; hence on a run whose final
status is not 200/201/202 the callback trace still ends with the terminal 100%
report while the promise rejects with the response. -/
theorem loadEvent_reports_done_before_status (run : UploadRun)
    (h : isOkStatus run.status = false) :
    (loadEventCalls run.status run.response).1 = [((100 : ℚ), true)] ∧
    (submitMovieFileTrace run).1.getLast? = some ((100 : ℚ), true) ∧
    (submitMovieFileTrace run).2 = Except.error run.response := by
  refine ⟨rfl, List.getLast?_concat _, ?_⟩
  simp [submitMovieFileTrace, loadEventCalls, h]

/-- C9 witness: a failed upload run with status 500 still ends its callback
trace with (100, true) and rejects with the response body. -/
theorem loadEvent_reports_done_before_status_witness :
    (loadEventCalls (500 : Nat) "boom").1 = [((100 : ℚ), true)] ∧
    (submitMovieFileTrace ⟨[], 500, "boom"⟩).1.getLast? = some ((100 : ℚ), true) ∧
    (submitMovieFileTrace ⟨[], 500, "boom"⟩).2 = Except.error "boom" :=
  loadEvent_reports_done_before_status ⟨[], 500, "boom"⟩ (by decide)

/-- C3: `submitMovie` submits the metadata first and obtains the MovieId from
the POST /movie response body; when the metadata submission fails, no file
upload is issued; when it succeeds with id, the file upload is issued exactly
once, for that id, after the metadata request, and the value returned on
success is exactly that id. -/
theorem submitMovie_sequencing (env : HttpEnv) (movie : MovieSubmit) :
    (env.postMovieResponse movie = none →
      submitMovie env movie =
        ([Request.postMovieInfo movie], Except.error "Failed to submit movie")) ∧
    (∀ id, env.postMovieResponse movie = some id →
      (submitMovie env movie).1 = [Request.postMovieInfo movie, Request.postMovieFile id] ∧
      (env.postFileOk id = true → (submitMovie env movie).2 = Except.ok id)) := by
  constructor
  · intro h
    simp [submitMovie, submitMovieInfo, submitMovieFileCall, h]
  · intro id h
    constructor
    · by_cases hf : env.postFileOk id <;>
        simp [submitMovie, submitMovieInfo, submitMovieFileCall, h, hf]
    · intro hf
      simp [submitMovie, submitMovieInfo, submitMovieFileCall, h, hf]

/-- C3 witness: the sequencing contract evaluated against a server that accepts
the metadata with id "42" and accepts the upload. -/
theorem submitMovie_sequencing_witness :
    (submitMovie ⟨fun _ => some "42", fun _ => true⟩ ⟨"T", none, none⟩).1 =
      [Request.postMovieInfo ⟨"T", none, none⟩, Request.postMovieFile "42"] ∧
    (submitMovie ⟨fun _ => some "42", fun _ => true⟩ ⟨"T", none, none⟩).2 =
      Except.ok "42" := by
  have h :=
    (submitMovie_sequencing ⟨fun _ => some "42", fun _ => true⟩ ⟨"T", none, none⟩).2
      "42" rfl
  exact ⟨h.1, h.2 rfl⟩

/-- C4: creating a movie with an empty title fails with InvalidInput and leaves
the store unchanged (backend `create` modelled from the spec), and the client
never issues a metadata submission with an empty title: `createMovieSubmitInfo`
returns null when the title has length 0, the Add button is disabled in that
state, `handleSubmit` does not call `onSubmit`, and any `onSubmit` call made by
`handleSubmit` carries a non-empty title. -/
theorem create_empty_title (st : RecordStore) (title : String) (d : Option String)
    (tags : List String) (s : AddVideoDialogState)
    (ht : title.length = 0) (hs : s.title.length = 0) :
    create st title d tags = (st, Except.error CreateError.invalidInput) ∧
    createMovieSubmitInfo s = none ∧
    addButtonDisabled s = true ∧
    handleSubmit s = none ∧
    (∀ (s' : AddVideoDialogState) (info : MovieSubmit) (f : File),
      handleSubmit s' = some (info, f) → info.title.length ≠ 0) := by
  refine ⟨by simp [create, ht], by simp [createMovieSubmitInfo, hs],
    by simp [addButtonDisabled, hs], by simp [handleSubmit, createMovieSubmitInfo, hs], ?_⟩
  intro s' info f hsub
  by_cases h0 : s'.title.length = 0
  · simp [handleSubmit, createMovieSubmitInfo, h0] at hsub
  · rcases hfile : s'.file with _ | f'
    · simp [handleSubmit, createMovieSubmitInfo, h0, hfile] at hsub
    · simp only [handleSubmit, createMovieSubmitInfo, h0, if_false, hfile] at hsub
      obtain ⟨hinfo, _⟩ := Prod.mk.injEq .. ▸ Option.some.injEq .. ▸ hsub
      rw [← hinfo]
      exact h0

/-- C4 witness: the empty-title rejection evaluated on an empty store and on
the dialog state with empty title and no file. -/
theorem create_empty_title_witness :
    create ⟨[], 0⟩ "" none [] = (⟨[], 0⟩, Except.error CreateError.invalidInput) ∧
    createMovieSubmitInfo ⟨"", "", [], none⟩ = none ∧
    addButtonDisabled ⟨"", "", [], none⟩ = true ∧
    handleSubmit ⟨"", "", [], none⟩ = none := by
  have h := create_empty_title ⟨[], 0⟩ "" none [] ⟨"", "", [], none⟩ rfl rfl
  exact ⟨h.1, h.2.1, h.2.2.1, h.2.2.2.1⟩

/-- C5: when a movie record has no screenshot_file_info, VideoCard never sets a
preview URL and renders the placeholder image, the card issues no screenshot
request (only the `getMovie` detail fetch), and the video resource URL from
`getMovieUrl` is built from the endpoint and id alone, unaffected by the
screenshot's absence. -/
theorem videoCard_no_screenshot (endpoint : String) (id : MovieId)
    (movie : MovieDetailed) (h : movie.screenshot_file_info = none) :
    videoCardPreviewURL endpoint id movie = none ∧
    videoCardMedia endpoint id movie = CardMedia.placeholder ∧
    (∀ r ∈ videoCardRequests endpoint id movie, r = ResourceReq.getMovie id) ∧
    getMovieUrl endpoint id = endpoint ++ "/movie/file?id=" ++ id := by
  have h1 : videoCardPreviewURL endpoint id movie = none := by
    simp [videoCardPreviewURL, h]
  refine ⟨h1, by simp [videoCardMedia, h1], ?_, rfl⟩
  intro r hr
  simp [videoCardRequests, h1] at hr
  exact hr

/-- C5 witness: the no-screenshot behaviour evaluated on a concrete record with
an attached video file and no screenshot. -/
theorem videoCard_no_screenshot_witness :
    videoCardPreviewURL "e" "1" ⟨⟨"T", none, none⟩, some ⟨"mp4", "video/mp4"⟩, none, "d"⟩ =
      none ∧
    videoCardMedia "e" "1" ⟨⟨"T", none, none⟩, some ⟨"mp4", "video/mp4"⟩, none, "d"⟩ =
      CardMedia.placeholder ∧
    getMovieUrl "e" "1" = "e" ++ "/movie/file?id=" ++ "1" := by
  have h :=
    videoCard_no_screenshot "e" "1"
      ⟨⟨"T", none, none⟩, some ⟨"mp4", "video/mp4"⟩, none, "d"⟩ rfl
  exact ⟨h.1, h.2.1, h.2.2.2⟩

end MoviesDb
